import Mathlib

/-!
Verification of the Shield-Alignment profile-analysis pipeline.

This file shallowly embeds the numeric core of the repository
(`core_utils.py` and the orchestration in the trapezoidal-fit part of
`profile_creation.py`) over exact rational arithmetic.  The embedding
conventions are:

* numpy float arrays become `List ℚ`; the float operations used by the
  code (sums, means, least squares, comparisons) are exact on the inputs
  considered, so `ℚ` is faithful except where IEEE non-finite values
  matter, which is modelled explicitly by `FVal`;
* a Python function that can return `None` returns an `Option`;
* a Python function that can raise an uncaught exception returns
  `Except Unit`, with `Except.error ()` standing for the raised exception;
* `scipy.optimize.curve_fit` (an external numeric solver) is an oracle
  parameter of type `CurveFit`: `none` models the solver raising, and
  `some (a, b, c)` models a successful fit returning those parameters.
  The post-processing that the repository applies to its output is
  embedded exactly;
* `scipy.signal.find_peaks` with a `prominence` threshold is embedded
  following its algorithm: interior local maxima with plateau midpoints,
  then the standard prominence computation, then the threshold filter.
-/

/-- Arithmetic mean of a list, `np.mean`: sum divided by length
(division by zero only for the empty list, which every caller guards). -/
def mean (l : List ℚ) : ℚ := l.sum / (l.length : ℚ)

/-- Slice `l[i:i+w]` of a Python list / 1-D numpy array. -/
def window (l : List ℚ) (i w : ℕ) : List ℚ := (l.drop i).take w

/-- Least-squares slope of the degree-1 fit `np.polyfit(xs, ys, 1)`:
`(n·Σxy − Σx·Σy) / (n·Σx² − (Σx)²)`.  Total over `ℚ` (`q / 0 = 0`);
the callers only apply it to windows with non-constant `xs`, where the
denominator is nonzero and the value agrees with numpy. -/
def lsSlope (xs ys : List ℚ) : ℚ :=
  let n : ℚ := (xs.length : ℚ)
  let sx := xs.sum
  let sy := ys.sum
  let sxy := ((xs.zip ys).map (fun p => p.1 * p.2)).sum
  let sxx := (xs.map (fun a => a * a)).sum
  (n * sxy - sx * sy) / (n * sxx - sx * sx)

/-- Least-squares intercept of the degree-1 fit: `(Σy − slope·Σx) / n`. -/
def lsIntercept (xs ys : List ℚ) : ℚ :=
  (ys.sum - lsSlope xs ys * xs.sum) / (xs.length : ℚ)

/-- Slope of the length-`w` window starting at `i` of the data `(x, y)`. -/
def windowSlope (x y : List ℚ) (w i : ℕ) : ℚ := lsSlope (window x i w) (window y i w)

/-- Intercept of the length-`w` window starting at `i` of the data `(x, y)`. -/
def windowIntercept (x y : List ℚ) (w i : ℕ) : ℚ :=
  lsIntercept (window x i w) (window y i w)

/-- Python `int(q)` on a float: truncation toward zero. -/
def pyTrunc (q : ℚ) : ℤ := if 0 ≤ q then ⌊q⌋ else ⌈q⌉

/-- Python slice `l[:k]` for a possibly negative bound `k`
(`l[:k] = l[:max(0, len l + k)]` when `k < 0`). -/
def pySliceTo (l : List ℚ) (k : ℤ) : List ℚ :=
  l.take (if 0 ≤ k then k.toNat else ((l.length : ℤ) + k).toNat)

/-- Python slice `l[k:]` for a possibly negative bound `k`. -/
def pySliceFrom (l : List ℚ) (k : ℤ) : List ℚ :=
  l.drop (if 0 ≤ k then k.toNat else ((l.length : ℤ) + k).toNat)

/-!
## Sliding-window selection loops

Both `find_horizontal_segment` and `find_greatest_gradient_segments`
iterate `i` over `range(len(x) - segment_size + 1)` and keep the first
window winning a strict comparison.  We embed the loop as a recursion
that processes index `n` after the indices below `n`, carrying the
Python accumulator (current best value, together with the index it came
from; the Python code stores the slices of the winning window, which are
recomputed from the winning index when the loop ends — the returned
values are identical).  `none` models the `inf` / `-inf` sentinel, which
every first processed value beats.
-/

/-- One iteration of a strict-`<` selection loop: process index `i` if
the filter `P` accepts it, replacing the best on `f i < best`. -/
def pyScanMinStep (f : ℕ → ℚ) (P : ℕ → Bool) (acc : Option (ℚ × ℕ)) (i : ℕ) :
    Option (ℚ × ℕ) :=
  if P i then
    match acc with
    | none => some (f i, i)
    | some (b, bi) => if f i < b then some (f i, i) else some (b, bi)
  else acc

/-- Strict-`<` selection loop over indices `0, 1, …, n−1` in order. -/
def pyScanMin (f : ℕ → ℚ) (P : ℕ → Bool) : ℕ → Option (ℚ × ℕ)
  | 0 => none
  | n + 1 => pyScanMinStep f P (pyScanMin f P n) n

/-- One iteration of a strict-`>` selection loop. -/
def pyScanMaxStep (f : ℕ → ℚ) (P : ℕ → Bool) (acc : Option (ℚ × ℕ)) (i : ℕ) :
    Option (ℚ × ℕ) :=
  if P i then
    match acc with
    | none => some (f i, i)
    | some (b, bi) => if b < f i then some (f i, i) else some (b, bi)
  else acc

/-- Strict-`>` selection loop over indices `0, 1, …, n−1` in order. -/
def pyScanMax (f : ℕ → ℚ) (P : ℕ → Bool) : ℕ → Option (ℚ × ℕ)
  | 0 => none
  | n + 1 => pyScanMaxStep f P (pyScanMax f P n) n

/-- A strict-`<` selection loop returns `none` exactly when no index
passed the filter, and otherwise the first index realizing the minimum
of `f` over the accepted indices. -/
theorem pyScanMin_spec (f : ℕ → ℚ) (P : ℕ → Bool) (N : ℕ) :
    (pyScanMin f P N = none ∧ ∀ k, k < N → P k = false) ∨
    (∃ j, j < N ∧ P j = true ∧ pyScanMin f P N = some (f j, j) ∧
      (∀ k, k < N → P k = true → f j ≤ f k) ∧
      (∀ k, k < j → P k = true → f j < f k)) := by
  induction N with
  | zero =>
    left
    exact ⟨rfl, by omega⟩
  | succ n ih =>
    rcases ih with ⟨hnone, hall⟩ | ⟨j, hj, hPj, heq, hmin, hfirst⟩
    · by_cases hP : P n = true
      · right
        refine ⟨n, by omega, hP, ?_, ?_, ?_⟩
        · simp [pyScanMin, hnone, pyScanMinStep, hP]
        · intro k hk hPk
          rcases Nat.lt_succ_iff_lt_or_eq.mp hk with h | h
          · exact absurd hPk (by simp [hall k h])
          · subst h; exact le_refl _
        · intro k hk hPk
          exact absurd hPk (by simp [hall k (by omega)])
      · left
        refine ⟨?_, ?_⟩
        · simp [pyScanMin, hnone, pyScanMinStep, hP]
        · intro k hk
          rcases Nat.lt_succ_iff_lt_or_eq.mp hk with h | h
          · exact hall k h
          · subst h; simpa using hP
    · by_cases hP : P n = true
      · by_cases hlt : f n < f j
        · right
          refine ⟨n, by omega, hP, ?_, ?_, ?_⟩
          · simp [pyScanMin, heq, pyScanMinStep, hP, hlt]
          · intro k hk hPk
            rcases Nat.lt_succ_iff_lt_or_eq.mp hk with h | h
            · exact le_of_lt (lt_of_lt_of_le hlt (hmin k h hPk))
            · subst h; exact le_refl _
          · intro k hk hPk
            exact lt_of_lt_of_le hlt (hmin k (by omega) hPk)
        · right
          refine ⟨j, by omega, hPj, ?_, ?_, hfirst⟩
          · simp [pyScanMin, heq, pyScanMinStep, hP, hlt]
          · intro k hk hPk
            rcases Nat.lt_succ_iff_lt_or_eq.mp hk with h | h
            · exact hmin k h hPk
            · subst h; exact le_of_not_lt hlt
      · right
        refine ⟨j, by omega, hPj, ?_, ?_, hfirst⟩
        · simp [pyScanMin, heq, pyScanMinStep, hP]
        · intro k hk hPk
          rcases Nat.lt_succ_iff_lt_or_eq.mp hk with h | h
          · exact hmin k h hPk
          · subst h; exact absurd hPk (by simp [hP])

/-- A strict-`>` selection loop returns `none` exactly when no index
passed the filter, and otherwise the first index realizing the maximum
of `f` over the accepted indices. -/
theorem pyScanMax_spec (f : ℕ → ℚ) (P : ℕ → Bool) (N : ℕ) :
    (pyScanMax f P N = none ∧ ∀ k, k < N → P k = false) ∨
    (∃ j, j < N ∧ P j = true ∧ pyScanMax f P N = some (f j, j) ∧
      (∀ k, k < N → P k = true → f k ≤ f j) ∧
      (∀ k, k < j → P k = true → f k < f j)) := by
  induction N with
  | zero =>
    left
    exact ⟨rfl, by omega⟩
  | succ n ih =>
    rcases ih with ⟨hnone, hall⟩ | ⟨j, hj, hPj, heq, hmax, hfirst⟩
    · by_cases hP : P n = true
      · right
        refine ⟨n, by omega, hP, ?_, ?_, ?_⟩
        · simp [pyScanMax, hnone, pyScanMaxStep, hP]
        · intro k hk hPk
          rcases Nat.lt_succ_iff_lt_or_eq.mp hk with h | h
          · exact absurd hPk (by simp [hall k h])
          · subst h; exact le_refl _
        · intro k hk hPk
          exact absurd hPk (by simp [hall k (by omega)])
      · left
        refine ⟨?_, ?_⟩
        · simp [pyScanMax, hnone, pyScanMaxStep, hP]
        · intro k hk
          rcases Nat.lt_succ_iff_lt_or_eq.mp hk with h | h
          · exact hall k h
          · subst h; simpa using hP
    · by_cases hP : P n = true
      · by_cases hlt : f j < f n
        · right
          refine ⟨n, by omega, hP, ?_, ?_, ?_⟩
          · simp [pyScanMax, heq, pyScanMaxStep, hP, hlt]
          · intro k hk hPk
            rcases Nat.lt_succ_iff_lt_or_eq.mp hk with h | h
            · exact le_of_lt (lt_of_le_of_lt (hmax k h hPk) hlt)
            · subst h; exact le_refl _
          · intro k hk hPk
            exact lt_of_le_of_lt (hmax k (by omega) hPk) hlt
        · right
          refine ⟨j, by omega, hPj, ?_, ?_, hfirst⟩
          · simp [pyScanMax, heq, pyScanMaxStep, hP, hlt]
          · intro k hk hPk
            rcases Nat.lt_succ_iff_lt_or_eq.mp hk with h | h
            · exact hmax k h hPk
            · subst h; exact le_of_not_lt hlt
      · right
        refine ⟨j, by omega, hPj, ?_, ?_, hfirst⟩
        · simp [pyScanMax, heq, pyScanMaxStep, hP]
        · intro k hk hPk
          rcases Nat.lt_succ_iff_lt_or_eq.mp hk with h | h
          · exact hmax k h hPk
          · subst h; exact absurd hPk (by simp [hP])

/-!
## numpy argmin / argmax

`np.argmin` / `np.argmax` return the index of the first occurrence of
the extremum: exactly a strict selection loop over all indices.
-/

/-- Index of the first minimum of a list (`np.argmin`); `0` on the empty
list, on which numpy raises instead — each call site guards nonemptiness
or is itself modelled as raising. -/
def npArgmin (l : List ℚ) : ℕ :=
  match pyScanMin (fun i => l.getD i 0) (fun _ => true) l.length with
  | none => 0
  | some (_, j) => j

/-- Index of the first maximum of a list (`np.argmax`); `0` on the empty
list, on which numpy raises instead. -/
def npArgmax (l : List ℚ) : ℕ :=
  match pyScanMax (fun i => l.getD i 0) (fun _ => true) l.length with
  | none => 0
  | some (_, j) => j

theorem npArgmin_spec (l : List ℚ) (hl : l ≠ []) :
    npArgmin l < l.length ∧ ∀ k, k < l.length → l.getD (npArgmin l) 0 ≤ l.getD k 0 := by
  rcases pyScanMin_spec (fun i => l.getD i 0) (fun _ => true) l.length with
    ⟨_, hall⟩ | ⟨j, hj, _, heq, hmin, _⟩
  · have hlen : 0 < l.length := List.length_pos.mpr hl
    exact absurd (hall 0 hlen) (by simp)
  · have hdef : npArgmin l = j := by
      unfold npArgmin
      rw [heq]
    rw [hdef]
    exact ⟨hj, fun k hk => hmin k hk rfl⟩

theorem npArgmax_spec (l : List ℚ) (hl : l ≠ []) :
    npArgmax l < l.length ∧ ∀ k, k < l.length → l.getD k 0 ≤ l.getD (npArgmax l) 0 := by
  rcases pyScanMax_spec (fun i => l.getD i 0) (fun _ => true) l.length with
    ⟨_, hall⟩ | ⟨j, hj, _, heq, hmax, _⟩
  · have hlen : 0 < l.length := List.length_pos.mpr hl
    exact absurd (hall 0 hlen) (by simp)
  · have hdef : npArgmax l = j := by
      unfold npArgmax
      rw [heq]
    rw [hdef]
    exact ⟨hj, fun k hk => hmax k hk rfl⟩

/-!
## scipy.signal.find_peaks with a prominence threshold

Embedded from the scipy implementation: interior local maxima (runs of
equal values strictly above both neighbours, excluding both endpoints of
the signal, reported at the plateau midpoint), then for each peak the
prominence (peak height minus the higher of the lowest values scanned
left and right until a sample exceeding the peak or the signal edge),
then the filter `prominence_min ≤ prominence`.  The while loops are
embedded with an explicit fuel argument that is always at least the
number of iterations the Python loop performs.
-/

/-- Inner while loop of the local-maxima search: first index `≥ i` that
is `imax` or carries a value different from `v` (the plateau end). -/
def plateauEnd (s : ℕ → ℚ) (imax : ℕ) (v : ℚ) : ℕ → ℕ → ℕ
  | i, 0 => i
  | i, fuel + 1 => if i < imax ∧ s i = v then plateauEnd s imax v (i + 1) fuel else i

/-- Outer while loop of `_local_maxima_1d`: scan `i` from `1` while
`i < imax`, detecting plateau midpoints of strict local maxima. -/
def localMaxAux (s : ℕ → ℚ) (imax : ℕ) : ℕ → ℕ → List ℕ
  | 0, _ => []
  | fuel + 1, i =>
    if i < imax then
      if s (i - 1) < s i then
        let ia := plateauEnd s imax (s i) (i + 1) imax
        if s ia < s i then
          ((i + (ia - 1)) / 2) :: localMaxAux s imax fuel (ia + 1)
        else localMaxAux s imax fuel (i + 1)
      else localMaxAux s imax fuel (i + 1)
    else []

/-- Midpoints of the interior local maxima of the length-`n` signal `s`. -/
def localMaxima (s : ℕ → ℚ) (n : ℕ) : List ℕ := localMaxAux s (n - 1) n 1

/-- Leftward prominence scan: walk `i` down from the peak while
`s i ≤ s peak`, accumulating the minimum. -/
def promScanLeft (s : ℕ → ℚ) (sp : ℚ) : ℕ → ℚ → ℚ
  | 0, acc => if s 0 ≤ sp then min acc (s 0) else acc
  | i + 1, acc => if s (i + 1) ≤ sp then promScanLeft s sp i (min acc (s (i + 1))) else acc

/-- Rightward prominence scan: walk `i` up from the peak while
`i ≤ imax` and `s i ≤ s peak`, accumulating the minimum. -/
def promScanRight (s : ℕ → ℚ) (sp : ℚ) (imax : ℕ) : ℕ → ℕ → ℚ → ℚ
  | _, 0, acc => acc
  | i, fuel + 1, acc =>
    if i ≤ imax ∧ s i ≤ sp then promScanRight s sp imax (i + 1) fuel (min acc (s i)) else acc

/-- Prominence of the peak at index `p` of the length-`n` signal `s`. -/
def prominenceAt (s : ℕ → ℚ) (n : ℕ) (p : ℕ) : ℚ :=
  s p - max (promScanLeft s (s p) p (s p)) (promScanRight s (s p) (n - 1) p n (s p))

/-- `scipy.signal.find_peaks(s, prominence=prom)` on the length-`n`
signal `s`: local-maxima midpoints whose prominence reaches `prom`. -/
def findPeaksProminence (s : ℕ → ℚ) (n : ℕ) (prom : ℚ) : List ℕ :=
  (localMaxima s n).filter (fun p => decide (prom ≤ prominenceAt s n p))

/-- The valley candidates of `find_valley_and_fit_parabola`:
`find_peaks(-data, prominence=prominence)`. -/
def valleysOf (data : List ℚ) (prom : ℚ) : List ℕ :=
  findPeaksProminence (fun j => -(data.getD j 0)) data.length prom

/-!
## IEEE-style value model and the parabola fitter

`fit_parabola` (core_utils.py lines 18-30) calls `curve_fit` and then
computes `vertex_x = -b / (2*a)` and `vertex_y = a*vertex_x**2 +
b*vertex_x + c` on numpy floats.  A zero division there does not raise —
it produces `inf`/`-inf`/`nan` (numpy emits only a warning) — so the
vertex must be modelled over a domain with the IEEE non-finite values.
`FVal` is that domain: exact rationals for finite values (adequate here
because no rounding or overflow is involved in the claims under check,
and zero models `+0.0`, the sign `2*a` has when `curve_fit` returns
`a = 0.0`) plus the three special values with the IEEE rules for the
operations the code performs.
-/

/-- A float value: finite (exact rational), `inf`, `-inf`, or `nan`. -/
inductive FVal where
  | fin (q : ℚ)
  | inf
  | ninf
  | nan
deriving DecidableEq

/-- IEEE negation. -/
def FVal.neg : FVal → FVal
  | .fin q => .fin (-q)
  | .inf => .ninf
  | .ninf => .inf
  | .nan => .nan

/-- IEEE addition (no negative zero; exact on finite values). -/
def FVal.add : FVal → FVal → FVal
  | .nan, _ => .nan
  | _, .nan => .nan
  | .fin a, .fin b => .fin (a + b)
  | .fin _, .inf => .inf
  | .inf, .fin _ => .inf
  | .fin _, .ninf => .ninf
  | .ninf, .fin _ => .ninf
  | .inf, .inf => .inf
  | .ninf, .ninf => .ninf
  | .inf, .ninf => .nan
  | .ninf, .inf => .nan

/-- IEEE multiplication (no negative zero; exact on finite values). -/
def FVal.mul : FVal → FVal → FVal
  | .nan, _ => .nan
  | _, .nan => .nan
  | .fin a, .fin b => .fin (a * b)
  | .fin a, .inf => if 0 < a then .inf else if a < 0 then .ninf else .nan
  | .inf, .fin a => if 0 < a then .inf else if a < 0 then .ninf else .nan
  | .fin a, .ninf => if 0 < a then .ninf else if a < 0 then .inf else .nan
  | .ninf, .fin a => if 0 < a then .ninf else if a < 0 then .inf else .nan
  | .inf, .inf => .inf
  | .ninf, .ninf => .inf
  | .inf, .ninf => .ninf
  | .ninf, .inf => .ninf

/-- IEEE division with `+0.0` for zero: `x / 0` is `±inf` for nonzero
finite `x` and `nan` for `x = 0`. -/
def FVal.div : FVal → FVal → FVal
  | .nan, _ => .nan
  | _, .nan => .nan
  | .fin a, .fin b =>
    if b ≠ 0 then .fin (a / b)
    else if 0 < a then .inf else if a < 0 then .ninf else .nan
  | .fin _, .inf => .fin 0
  | .fin _, .ninf => .fin 0
  | .inf, .fin b => if 0 ≤ b then .inf else .ninf
  | .ninf, .fin b => if 0 ≤ b then .ninf else .inf
  | .inf, _ => .nan
  | .ninf, _ => .nan

/-- The parabola model `a*x**2 + b*x + c` (core_utils.py lines 14-16),
evaluated at a possibly non-finite `x`. -/
def parabolaF (a b c : ℚ) (x : FVal) : FVal :=
  FVal.add (FVal.add (FVal.mul (.fin a) (FVal.mul x x)) (FVal.mul (.fin b) x)) (.fin c)

/-- Model of `scipy.optimize.curve_fit` for the parabola model: the
external solver either raises (`none`) or returns fitted parameters
`(a, b, c)`. -/
def CurveFit : Type := List ℚ → List ℚ → Option (ℚ × ℚ × ℚ)

/-- `fit_parabola` (core_utils.py lines 18-30) given the outcome of
`curve_fit`: any exception yields `(None, None, None)`; otherwise the
vertex is computed as `-b / (2*a)` with no check on `a`, so `a = 0`
produces a non-finite vertex which is returned, not `None`. -/
def fit_parabola (fitResult : Option (ℚ × ℚ × ℚ)) :
    Option (ℚ × ℚ × ℚ) × Option FVal × Option FVal :=
  match fitResult with
  | none => (none, none, none)
  | some (a, b, c) =>
    let vertex_x := FVal.div (FVal.neg (.fin b)) (FVal.mul (.fin 2) (.fin a))
    (some (a, b, c), some vertex_x, some (parabolaF a b c vertex_x))

/-!
## find_valley_and_fit_parabola (core_utils.py lines 32-50)
-/

/-- The selected valley index: among the prominence-detected valleys the
one with the smallest `data` value selected by `np.argmin` (first on
ties); if no valley was detected, the global `np.argmin` of `data`. -/
def lowest_valley_index (data : List ℚ) (prom : ℚ) : ℕ :=
  let valleys := valleysOf data prom
  if valleys = [] then npArgmin data
  else valleys.getD (npArgmin (valleys.map (fun j => data.getD j 0))) 0

/-- The parabola-fit window: `x[fit_start:fit_end]` and
`data[fit_start:fit_end]` with `fit_start = max(0, idx - fit_range)`
(natural subtraction) and `fit_end = min(len(data), idx + fit_range + 1)`. -/
def fitWindow (x data : List ℚ) (fit_range : ℕ) (prom : ℚ) : List ℚ × List ℚ :=
  let idx := lowest_valley_index data prom
  let fit_start := idx - fit_range
  let fit_end := min data.length (idx + fit_range + 1)
  ((x.take fit_end).drop fit_start, (data.take fit_end).drop fit_start)

/-- `find_valley_and_fit_parabola` (core_utils.py lines 32-50): locate
the valley, slice the window, give up (all `None`) on fewer than 3
window samples, otherwise fit the parabola. -/
def find_valley_and_fit_parabola (curveFit : CurveFit) (x data : List ℚ)
    (fit_range : ℕ) (prom : ℚ) :
    Option (ℚ × ℚ × ℚ) × Option FVal × Option FVal :=
  let w := fitWindow x data fit_range prom
  if w.1.length < 3 then (none, none, none)
  else fit_parabola (curveFit w.1 w.2)

/-!
## find_horizontal_segment (core_utils.py lines 53-89)
-/

/-- The window filter of `find_horizontal_segment`: skip windows not
containing the argmax index of `y`
(`max_y_index in range(i, i + segment_size)`). -/
def hsContainsMax (y : List ℚ) (segment_size i : ℕ) : Bool :=
  decide (i ≤ npArgmax y ∧ npArgmax y < i + segment_size)

/-- `find_horizontal_segment` (core_utils.py lines 53-89).  It begins
with `np.argmax(y)`, which raises on an empty array (`Except.error`).
Otherwise it scans windows `i ∈ range(len(x) - segment_size + 1)` that
contain the argmax index, tracking the minimum `|slope|` under strict
`<` (first window wins ties), and returns the winning slices, or
`(None, None)` when no window qualified. -/
def find_horizontal_segment (x y : List ℚ) (segment_size : ℕ := 9) :
    Except Unit (Option (List ℚ) × Option (List ℚ)) :=
  if y.length = 0 then Except.error ()
  else
    match pyScanMin (fun i => |windowSlope x y segment_size i|)
        (hsContainsMax y segment_size) (x.length + 1 - segment_size) with
    | none => Except.ok (none, none)
    | some (_, j) => Except.ok (some (window x j segment_size), some (window y j segment_size))

/-!
## find_greatest_gradient_segments (core_utils.py lines 91-147)
-/

/-- The ten-component result tuple of `find_greatest_gradient_segments`:
`(pos_x, pos_y, max_positive_gradient, pos_slope, pos_intercept,
  neg_x, neg_y, max_negative_gradient, neg_slope, neg_intercept)`. -/
structure GradResult where
  pos_x : Option (List ℚ)
  pos_y : Option (List ℚ)
  max_positive_gradient : Option ℚ
  pos_slope : Option ℚ
  pos_intercept : Option ℚ
  neg_x : Option (List ℚ)
  neg_y : Option (List ℚ)
  max_negative_gradient : Option ℚ
  neg_slope : Option ℚ
  neg_intercept : Option ℚ
deriving DecidableEq

/-- The all-`None` result returned on fewer than `segment_size` points. -/
def GradResult.undef : GradResult :=
  ⟨none, none, none, none, none, none, none, none, none, none⟩

/-- `find_greatest_gradient_segments` (core_utils.py lines 91-147):
fails (all `None`) when `len(x) < segment_size`; otherwise one loop over
all windows tracks, with strict `>` and strict `<` (first window wins
ties), the greatest and the least signed slope.  The two trackers never
interact, so the loop is embedded as the two selection scans; the
winning windows, slopes and intercepts are recomputed from the winning
indices, which yields the same values the Python loop stored
(`max_positive_gradient` and `pos_slope` are assigned the same slope,
likewise for the negative tracker). -/
def find_greatest_gradient_segments (x y : List ℚ) (segment_size : ℕ := 3) : GradResult :=
  if x.length < segment_size then GradResult.undef
  else
    match pyScanMax (windowSlope x y segment_size) (fun _ => true) (x.length + 1 - segment_size),
        pyScanMin (windowSlope x y segment_size) (fun _ => true) (x.length + 1 - segment_size) with
    | some (bp, jp), some (bn, jn) =>
      ⟨some (window x jp segment_size), some (window y jp segment_size),
        some bp, some bp, some (windowIntercept x y segment_size jp),
        some (window x jn segment_size), some (window y jn segment_size),
        some bn, some bn, some (windowIntercept x y segment_size jn)⟩
    | _, _ => GradResult.undef

/-!
## find_intersection_with_horizontal (core_utils.py lines 149-177)
-/

/-- `find_intersection_with_horizontal` (core_utils.py lines 149-177).
A missing or empty plateau returns `None`.  Then the Python code checks
`pos_slope == 0` — true only for an actual zero slope (`None == 0` is
`False`) — and returns `None`.  Otherwise it evaluates
`(mean - pos_intercept) / pos_slope`, which raises a `TypeError`
(modelled as `Except.error`) when the slope or the intercept is `None`. -/
def find_intersection_with_horizontal (pos_slope pos_intercept : Option ℚ)
    (horizontal_y_values : Option (List ℚ)) : Except Unit (Option ℚ) :=
  match horizontal_y_values with
  | none => Except.ok none
  | some ys =>
    if ys.length = 0 then Except.ok none
    else if pos_slope = some 0 then Except.ok none
    else
      match pos_slope, pos_intercept with
      | some m, some b => Except.ok (some ((mean ys - b) / m))
      | _, _ => Except.error ()

/-!
## outer_distance and inner_distance (core_utils.py lines 180-237)
-/

/-- `outer_distance` (core_utils.py lines 180-207): any `None` input
gives `(None, None)`; otherwise the absolute distances of the two
intersections to the vertex, each divided by the absolute span between
the intersections when the intersections differ, and `0` otherwise. -/
def outer_distance (intersection_pos_first intersection_neg_second vertex_x : Option ℚ) :
    Option ℚ × Option ℚ :=
  match intersection_pos_first, intersection_neg_second, vertex_x with
  | some p, some n, some v =>
    let distance_left := |p - v|
    let distance_right := |n - v|
    let rel_distance_left := if p ≠ n then distance_left / |p - n| else 0
    let rel_distance_right := if p ≠ n then distance_right / |p - n| else 0
    (some rel_distance_left, some rel_distance_right)
  | _, _, _ => (none, none)

/-- `inner_distance` (core_utils.py lines 210-237).  Parameter order as
in the source: `(intersection_pos_second, intersection_neg_first,
vertex_x)`.  `distance_right` is taken from the first parameter and
`distance_left` from the second, and `(rel_distance_left,
rel_distance_right)` is returned. -/
def inner_distance (intersection_pos_second intersection_neg_first vertex_x : Option ℚ) :
    Option ℚ × Option ℚ :=
  match intersection_pos_second, intersection_neg_first, vertex_x with
  | some p, some n, some v =>
    let distance_right := |p - v|
    let distance_left := |n - v|
    let rel_distance_left := if p ≠ n then distance_left / |p - n| else 0
    let rel_distance_right := if p ≠ n then distance_right / |p - n| else 0
    (some rel_distance_left, some rel_distance_right)
  | _, _, _ => (none, none)

/-!
## process_file (profile_creation.py lines 174-230, trapezoidal fit)
-/

/-- Default `VALLEY_PROMINENCE` (core_utils.py line 6). -/
def VALLEY_PROMINENCE : ℚ := 1 / 2

/-- Default `PARABOLA_FIT_RANGE` (core_utils.py line 8). -/
def PARABOLA_FIT_RANGE : ℕ := 3

/-- `process_file` (profile_creation.py lines 174-230): the per-file
analysis after the profile has been parsed into `(x, y)` pairs, with
`curve_fit` abstracted as an oracle.  `Except.error ()` models an
uncaught Python exception escaping `process_file`:

* `int(vertex_x)` raises when the vertex is non-finite;
* `find_horizontal_segment` raises on an empty half (argmax of empty);
* `find_intersection_with_horizontal` raises on a `None` slope or
  intercept with a present plateau;
* `(outer_left + inner_left) / 2` raises when either operand is `None`.

On success the returned value is
`(parabola_params, vertex_x, vertex_y, distance)`. -/
def process_file (curveFit : CurveFit) (data : List (ℚ × ℚ)) :
    Except Unit (Option (Option (ℚ × ℚ × ℚ) × FVal × Option FVal × ℚ)) :=
  if data.length < 10 then Except.ok none
  else
    let x := data.map Prod.fst
    let y := data.map Prod.snd
    match find_valley_and_fit_parabola curveFit x y PARABOLA_FIT_RANGE VALLEY_PROMINENCE with
    | (_, none, _) => Except.ok none
    | (params, some vertex_x, vertex_y) =>
      match vertex_x with
      | FVal.fin q =>
        let split_index : ℤ := pyTrunc q
        let first_half_x := pySliceTo x (split_index - 6)
        let first_half_y := pySliceTo y (split_index - 6)
        let second_half_x := pySliceFrom x (split_index + 6)
        let second_half_y := pySliceFrom y (split_index + 6)
        do
          let bf ← find_horizontal_segment first_half_x first_half_y 9
          let bs ← find_horizontal_segment second_half_x second_half_y 9
          let g1 := find_greatest_gradient_segments first_half_x first_half_y 3
          let g2 := find_greatest_gradient_segments second_half_x second_half_y 3
          let intersection_pos_first ←
            find_intersection_with_horizontal g1.pos_slope g1.pos_intercept bf.2
          let intersection_neg_first ←
            find_intersection_with_horizontal g1.neg_slope g1.neg_intercept bf.2
          let intersection_pos_second ←
            find_intersection_with_horizontal g2.pos_slope g2.pos_intercept bs.2
          let intersection_neg_second ←
            find_intersection_with_horizontal g2.neg_slope g2.neg_intercept bs.2
          let outer := outer_distance intersection_pos_first intersection_neg_second (some q)
          let inner := inner_distance intersection_neg_first intersection_pos_second (some q)
          match outer.1, inner.1 with
          | some outer_left, some inner_left =>
            Except.ok (some (params, FVal.fin q, vertex_y, (outer_left + inner_left) / 2))
          | _, _ => Except.error ()
      | _ => Except.error ()

/-!
## Helper lemmas
-/

/-- `outer_distance` on three present inputs, written out. -/
theorem outer_distance_some (p n v : ℚ) :
    outer_distance (some p) (some n) (some v) =
      (some (if p ≠ n then |p - v| / |p - n| else 0),
       some (if p ≠ n then |n - v| / |p - n| else 0)) := rfl

/-- `inner_distance` on three present inputs, written out (first
parameter `p`, second parameter `n` in the source parameter order). -/
theorem inner_distance_some (p n v : ℚ) :
    inner_distance (some p) (some n) (some v) =
      (some (if p ≠ n then |n - v| / |p - n| else 0),
       some (if p ≠ n then |p - v| / |p - n| else 0)) := rfl

theorem length_take_drop (l : List ℚ) (s e : ℕ) :
    ((l.take e).drop s).length = min e l.length - s := by
  simp [List.length_drop, List.length_take]

theorem getD_take_drop (l : List ℚ) (s e k : ℕ)
    (hk : k < ((l.take e).drop s).length) :
    ((l.take e).drop s).getD k 0 = l.getD (s + k) 0 := by
  have h1 : s + k < min e l.length := by
    have := length_take_drop l s e
    omega
  have h2 : k < ((l.take e).drop s).length := hk
  have h3 : s + k < l.length := by omega
  rw [List.getD_eq_getElem _ _ h2, List.getD_eq_getElem _ _ h3]
  rw [List.getElem_drop, List.getElem_take]

/-- Characterization of `find_greatest_gradient_segments` on inputs
with at least `segment_size` samples: both trackers pick the first
window attaining the extremal slope. -/
theorem grad_segments_spec (x y : List ℚ) (W : ℕ) (hlen : W ≤ x.length) :
    ∃ jp jn,
      find_greatest_gradient_segments x y W =
        ⟨some (window x jp W), some (window y jp W), some (windowSlope x y W jp),
          some (windowSlope x y W jp), some (windowIntercept x y W jp),
          some (window x jn W), some (window y jn W), some (windowSlope x y W jn),
          some (windowSlope x y W jn), some (windowIntercept x y W jn)⟩ ∧
      jp + W ≤ x.length ∧
      (∀ k, k + W ≤ x.length → windowSlope x y W k ≤ windowSlope x y W jp) ∧
      (∀ k, k < jp → windowSlope x y W k < windowSlope x y W jp) ∧
      jn + W ≤ x.length ∧
      (∀ k, k + W ≤ x.length → windowSlope x y W jn ≤ windowSlope x y W k) ∧
      (∀ k, k < jn → windowSlope x y W jn < windowSlope x y W k) := by
  have hN : 0 < x.length + 1 - W := by omega
  rcases pyScanMax_spec (windowSlope x y W) (fun _ => true) (x.length + 1 - W) with
    ⟨_, hall⟩ | ⟨jp, hjp, _, heqp, hmax, hfirstp⟩
  · exact absurd (hall 0 hN) (by simp)
  rcases pyScanMin_spec (windowSlope x y W) (fun _ => true) (x.length + 1 - W) with
    ⟨_, hall⟩ | ⟨jn, hjn, _, heqn, hmin, hfirstn⟩
  · exact absurd (hall 0 hN) (by simp)
  refine ⟨jp, jn, ?_, by omega, ?_, ?_, by omega, ?_, ?_⟩
  · unfold find_greatest_gradient_segments
    rw [if_neg (by omega), heqp, heqn]
  · intro k hk
    exact hmax k (by omega) rfl
  · intro k hk
    exact hfirstp k hk rfl
  · intro k hk
    exact hmin k (by omega) rfl
  · intro k hk
    exact hfirstn k hk rfl

/-!
## Claim theorems
-/

/-- C1: the claim states that an undefined intermediate always
short-circuits `process_file` to an overall `None` and that no exception
escapes the per-file analysis.  The code violates this: on the profile
below (10 samples, valley at index 5, `curve_fit` reporting vertex
`x = 2.3`), the first half after the split holds 6 samples, so the
plateau finder returns `(None, None)`, every intersection is `None`,
`outer_distance` returns `(None, None)`, and the final
`(outer_left + inner_left) / 2` raises a `TypeError` that escapes
`process_file` — modelled as `Except.error ()`. -/
theorem C1_undefined_intermediate_raises :
    process_file (fun _ _ => some (1, -23/5, 0))
      [(0, 9), (1, 9), (2, 9), (3, 9), (4, 9), (5, 0), (6, 9), (7, 9), (8, 9), (9, 9)] =
      Except.error () := by
  with_unfolding_all rfl

/-- C2 counterexample: the claim predicts that, as invoked with
`inner_distance(intersection_neg_first, intersection_pos_second,
vertex_x)`, the left ratio is the first argument's distance to the
vertex and the right ratio the second argument's.  At
`neg_first = 1`, `pos_second = 3`, `vertex_x = 1` the claim predicts
`(|1-1|/|1-3|, |3-1|/|1-3|) = (0, 1)`, but the code returns `(1, 0)`. -/
theorem C2_counterexample :
    inner_distance (some 1) (some 3) (some 1) = (some 1, some 0) ∧
    (some (1 : ℚ), some (0 : ℚ)) ≠
      (some (|(1 : ℚ) - 1| / |(1 : ℚ) - 3|), some (|(3 : ℚ) - 1| / |(1 : ℚ) - 3|)) := by
  constructor
  · with_unfolding_all decide
  · with_unfolding_all decide

/-- C2 amended: as invoked by the orchestrator (first positional
argument the first half's negative-slope-edge intersection `nf`, second
the second half's positive-slope-edge intersection `ps`), the returned
`rel_distance_left` is the distance from `ps` to the vertex and
`rel_distance_right` the distance from `nf` to the vertex — the two
labels are swapped relative to the `outer_distance` convention — each
normalized by the absolute span between the two intersections, with `0`
for a zero span. -/
theorem C2_inner_distance_as_invoked (nf ps v : ℚ) :
    inner_distance (some nf) (some ps) (some v) =
      (some (if nf = ps then 0 else |ps - v| / |nf - ps|),
       some (if nf = ps then 0 else |nf - v| / |nf - ps|)) := by
  rw [inner_distance_some]
  by_cases h : nf = ps
  · simp [h]
  · simp [h]

/-- C4: the claim states that a fitted quadratic coefficient `a = 0`
makes `fit_parabola` return `(None, None, None)` rather than a NaN or
infinite vertex.  The code has no check on `a`: when `curve_fit`
returns `(a, b, c) = (0, 1, 0)`, the code computes
`vertex_x = -1 / (2*0) = -inf` and `vertex_y = nan` and returns them,
not `None`. -/
theorem C4_zero_quadratic_vertex_not_none :
    fit_parabola (some (0, 1, 0)) = (some (0, 1, 0), some FVal.ninf, some FVal.nan) ∧
    some FVal.ninf ≠ (none : Option FVal) := by
  constructor
  · with_unfolding_all rfl
  · simp

/-- C7: the intersection solver is a left-inverse of line construction:
for a nonzero slope `m`, intercept `b`, and a non-empty plateau whose
mean is exactly `m*x0 + b`, `find_intersection_with_horizontal` returns
exactly `x0`. -/
theorem C7_intersection_left_inverse (m b x0 : ℚ) (ys : List ℚ)
    (hm : m ≠ 0) (hys : ys ≠ []) (hmean : mean ys = m * x0 + b) :
    find_intersection_with_horizontal (some m) (some b) (some ys) = Except.ok (some x0) := by
  have hlen : ¬ (ys.length = 0) := by simpa [List.length_eq_zero] using hys
  have hslope : ¬ ((some m : Option ℚ) = some 0) := by simpa using hm
  have hval : (mean ys - b) / m = x0 := by
    rw [hmean]
    field_simp
  simp only [find_intersection_with_horizontal, if_neg hlen, if_neg hslope, hval]

/-- C7 witness: at `m = 2`, `b = 1`, `x0 = 2`, plateau `[5, 5]`
(mean `5 = 2*2 + 1`), the solver returns `2`. -/
theorem C7_intersection_left_inverse_witness :
    (2 : ℚ) ≠ 0 ∧ ([5, 5] : List ℚ) ≠ [] ∧ mean [5, 5] = 2 * 2 + 1 ∧
    find_intersection_with_horizontal (some 2) (some 1) (some [5, 5]) = Except.ok (some 2) :=
  ⟨by norm_num, by simp, by with_unfolding_all decide,
    C7_intersection_left_inverse 2 1 2 [5, 5] (by norm_num) (by simp)
      (by with_unfolding_all decide)⟩

/-- C8: on equal defined intersection coordinates and a defined vertex,
both `outer_distance` and `inner_distance` return `(0, 0)` — the
zero-span case is mapped to `0` instead of dividing by zero. -/
theorem C8_zero_span_gives_zero (p v : ℚ) :
    outer_distance (some p) (some p) (some v) = (some 0, some 0) ∧
    inner_distance (some p) (some p) (some v) = (some 0, some 0) := by
  rw [outer_distance_some, inner_distance_some]
  simp

/-- C9 counterexample: the claim states the ratio pair is unchanged by
reflecting both intersections about the vertex and swapping the labels.
At `p = 0`, `n = 4`, `v = 1` the original pair is `(1/4, 3/4)` while
the transformed call returns `(3/4, 1/4)`. -/
theorem C9_counterexample :
    outer_distance (some (2 * (1 : ℚ) - 4)) (some (2 * (1 : ℚ) - 0)) (some 1) ≠
      outer_distance (some (0 : ℚ)) (some (4 : ℚ)) (some 1) := by
  with_unfolding_all decide

/-- C9 amended: reflecting both intersection coordinates about the
vertex (`x ↦ 2·v − x`) and swapping the positive- and negative-labelled
arguments swaps the two components of the returned ratio pair (so only
the unordered pair of ratios is invariant), for `outer_distance` and
`inner_distance` alike. -/
theorem C9_reflection_swaps_components (p n v : ℚ) :
    outer_distance (some (2 * v - n)) (some (2 * v - p)) (some v) =
      (outer_distance (some p) (some n) (some v)).swap ∧
    inner_distance (some (2 * v - n)) (some (2 * v - p)) (some v) =
      (inner_distance (some p) (some n) (some v)).swap := by
  have e1 : 2 * v - n - v = -(n - v) := by ring
  have e2 : 2 * v - p - v = -(p - v) := by ring
  have e3 : 2 * v - n - (2 * v - p) = p - n := by ring
  by_cases h : p = n
  · subst h
    rw [outer_distance_some, outer_distance_some, inner_distance_some, inner_distance_some]
    simp
  · have h2 : 2 * v - n ≠ 2 * v - p := by
      intro hh
      exact h (by linarith)
    rw [outer_distance_some, outer_distance_some, inner_distance_some, inner_distance_some]
    rw [if_pos h2, if_pos h2, if_pos h, if_pos h]
    rw [e1, e2, e3, abs_neg, abs_neg]
    constructor
    · rfl
    · rfl

/-- C3: when prominence-based detection finds at least one valley, the
selected index is a detected valley of minimal `data` value; on no
detection the selection falls back to the global argmin; the fit window
is the `[idx - r, idx + r]` slice clipped to the profile (at most
`2r + 1` samples); and a window of fewer than 3 samples makes the
function return `(None, None, None)` for every possible fit oracle,
i.e. without the fit influencing the result. -/
theorem C3_valley_selection (x data : List ℚ) (r : ℕ) (prom : ℚ) :
    (valleysOf data prom ≠ [] →
      lowest_valley_index data prom ∈ valleysOf data prom ∧
      ∀ j ∈ valleysOf data prom,
        data.getD (lowest_valley_index data prom) 0 ≤ data.getD j 0) ∧
    (valleysOf data prom = [] → lowest_valley_index data prom = npArgmin data) ∧
    (fitWindow x data r prom).2.length ≤ 2 * r + 1 ∧
    (∀ k, k < (fitWindow x data r prom).2.length →
      (fitWindow x data r prom).2.getD k 0 =
        data.getD (lowest_valley_index data prom - r + k) 0) ∧
    ((fitWindow x data r prom).1.length < 3 →
      ∀ curveFit, find_valley_and_fit_parabola curveFit x data r prom = (none, none, none)) := by
  refine ⟨?_, ?_, ?_, ?_, ?_⟩
  · intro hV
    have hmapne : (valleysOf data prom).map (fun j => data.getD j 0) ≠ [] := by
      simpa using hV
    obtain ⟨ha, hmin⟩ := npArgmin_spec _ hmapne
    have haV : npArgmin ((valleysOf data prom).map (fun j => data.getD j 0)) <
        (valleysOf data prom).length := by
      simpa using ha
    have hch : lowest_valley_index data prom =
        (valleysOf data prom).getD
          (npArgmin ((valleysOf data prom).map (fun j => data.getD j 0))) 0 := by
      unfold lowest_valley_index
      rw [if_neg hV]
    have egetD : ∀ i, i < (valleysOf data prom).length →
        ((valleysOf data prom).map (fun j => data.getD j 0)).getD i 0 =
          data.getD ((valleysOf data prom).getD i 0) 0 := by
      intro i hi
      rw [List.getD_eq_getElem _ _ (by simpa using hi), List.getElem_map,
        List.getD_eq_getElem _ _ hi]
    constructor
    · rw [hch, List.getD_eq_getElem _ _ haV]
      exact List.getElem_mem _
    · intro j hj
      obtain ⟨k, hk, hkj⟩ := List.mem_iff_getElem.mp hj
      have h1 := hmin k (by simpa using hk)
      rw [egetD _ haV, egetD _ hk] at h1
      rw [hch]
      calc data.getD ((valleysOf data prom).getD
            (npArgmin ((valleysOf data prom).map (fun j => data.getD j 0))) 0) 0
          ≤ data.getD ((valleysOf data prom).getD k 0) 0 := h1
        _ = data.getD j 0 := by rw [List.getD_eq_getElem _ _ hk, hkj]
  · intro hV
    unfold lowest_valley_index
    rw [if_pos hV]
  · simp only [fitWindow]
    rw [length_take_drop]
    omega
  · intro k hk
    simp only [fitWindow] at hk ⊢
    exact getD_take_drop data _ _ k hk
  · intro h curveFit
    simp only [find_valley_and_fit_parabola]
    rw [if_pos h]

/-- C3 witness: on the profile `[5, 0, 5, 5, 0, 5]` two valleys are
detected (indices 1 and 4); the selected index is one of them and has the
smallest `data` value among them. -/
theorem C3_valley_selection_witness :
    valleysOf [5, 0, 5, 5, 0, 5] (1 / 2) ≠ [] ∧
    lowest_valley_index [5, 0, 5, 5, 0, 5] (1 / 2) ∈ valleysOf [5, 0, 5, 5, 0, 5] (1 / 2) :=
  ⟨by with_unfolding_all decide,
    ((C3_valley_selection [0, 1, 2, 3, 4, 5] [5, 0, 5, 5, 0, 5] 3 (1 / 2)).1
      (by with_unfolding_all decide)).1⟩

/-- C5 (amended): for every non-empty half-profile, the horizontal
finder returns the length-`W` window containing the argmax index of `y`
of minimal `|slope|`, earliest start on ties (strict `<`), and returns
`(None, None)` when the half is shorter than `W`; but on the empty
half-profile it raises (`np.argmax` of an empty sequence) instead of
returning undefined. -/
theorem C5_horizontal_segment (x y : List ℚ) (W : ℕ) (hW : 0 < W)
    (hy : y ≠ []) (hxy : x.length = y.length) :
    (x.length < W → find_horizontal_segment x y W = Except.ok (none, none)) ∧
    (W ≤ x.length → ∃ j,
      find_horizontal_segment x y W =
        Except.ok (some (window x j W), some (window y j W)) ∧
      j + W ≤ x.length ∧ j ≤ npArgmax y ∧ npArgmax y < j + W ∧
      (∀ k, k + W ≤ x.length → k ≤ npArgmax y → npArgmax y < k + W →
        |windowSlope x y W j| ≤ |windowSlope x y W k|) ∧
      (∀ k, k < j → k ≤ npArgmax y → npArgmax y < k + W →
        |windowSlope x y W j| < |windowSlope x y W k|)) := by
  have hy0 : ¬ (y.length = 0) := by simpa [List.length_eq_zero] using hy
  constructor
  · intro hlt
    have hN : x.length + 1 - W = 0 := by omega
    unfold find_horizontal_segment
    rw [if_neg hy0, hN]
    rfl
  · intro hle
    have hA := (npArgmax_spec y hy).1
    rcases pyScanMin_spec (fun i => |windowSlope x y W i|) (hsContainsMax y W)
        (x.length + 1 - W) with ⟨hnone, hall⟩ | ⟨j, hj, hPj, heq, hmin, hfirst⟩
    · exfalso
      rcases le_or_lt (npArgmax y) (x.length - W) with hc | hc
      · have hP : hsContainsMax y W (npArgmax y) = true := by
          simp only [hsContainsMax, decide_eq_true_eq]
          omega
        have hfalse := hall (npArgmax y) (by omega)
        rw [hP] at hfalse
        exact Bool.noConfusion hfalse
      · have hP : hsContainsMax y W (x.length - W) = true := by
          simp only [hsContainsMax, decide_eq_true_eq]
          omega
        have hfalse := hall (x.length - W) (by omega)
        rw [hP] at hfalse
        exact Bool.noConfusion hfalse
    · have hcont := hPj
      simp only [hsContainsMax, decide_eq_true_eq] at hcont
      refine ⟨j, ?_, by omega, hcont.1, hcont.2, ?_, ?_⟩
      · unfold find_horizontal_segment
        rw [if_neg hy0, heq]
      · intro k hk h1 h2
        exact hmin k (by omega) (by simp only [hsContainsMax, decide_eq_true_eq]; exact ⟨h1, h2⟩)
      · intro k hk h1 h2
        exact hfirst k hk (by simp only [hsContainsMax, decide_eq_true_eq]; exact ⟨h1, h2⟩)

/-- C5 counterexample: on the empty half-profile (shorter than `W = 9`)
the claim demands undefined `(None, None)`, but the code raises
(`np.argmax` of an empty sequence), modelled as `Except.error ()`. -/
theorem C5_counterexample :
    find_horizontal_segment ([] : List ℚ) ([] : List ℚ) 9 = Except.error () ∧
    (Except.error () : Except Unit (Option (List ℚ) × Option (List ℚ))) ≠
      Except.ok (none, none) := by
  constructor
  · rfl
  · intro h
    exact Except.noConfusion h

/-- C5 witness: on the half-profile `x = y = [0, …, 9]` with `W = 9`,
the finder returns a window of the stated form. -/
theorem C5_horizontal_segment_witness :
    (0 < 9) ∧ (([0, 1, 2, 3, 4, 5, 6, 7, 8, 9] : List ℚ) ≠ []) ∧
    9 ≤ ([0, 1, 2, 3, 4, 5, 6, 7, 8, 9] : List ℚ).length ∧
    ∃ j, find_horizontal_segment ([0, 1, 2, 3, 4, 5, 6, 7, 8, 9] : List ℚ)
        ([0, 1, 2, 3, 4, 5, 6, 7, 8, 9] : List ℚ) 9 =
      Except.ok (some (window [0, 1, 2, 3, 4, 5, 6, 7, 8, 9] j 9),
        some (window [0, 1, 2, 3, 4, 5, 6, 7, 8, 9] j 9)) := by
  refine ⟨by norm_num, by simp, by decide, ?_⟩
  obtain ⟨j, hj, -, -, -, -, -⟩ :=
    (C5_horizontal_segment [0, 1, 2, 3, 4, 5, 6, 7, 8, 9] [0, 1, 2, 3, 4, 5, 6, 7, 8, 9] 9
      (by norm_num) (by simp) rfl).2 (by decide)
  exact ⟨j, hj⟩

/-- C6: with at least `W` samples the gradient finder returns the
first-encountered window of greatest signed slope as the positive
segment and the first-encountered window of least signed slope as the
negative segment (strict comparisons, earlier windows win ties), with
their slices, slopes and intercepts; with fewer than `W` samples all
ten outputs are `None`. -/
theorem C6_gradient_segments (x y : List ℚ) (W : ℕ) (_hW : 0 < W)
    (_hxy : x.length = y.length) :
    (x.length < W → find_greatest_gradient_segments x y W = GradResult.undef) ∧
    (W ≤ x.length → ∃ jp jn,
      find_greatest_gradient_segments x y W =
        ⟨some (window x jp W), some (window y jp W), some (windowSlope x y W jp),
          some (windowSlope x y W jp), some (windowIntercept x y W jp),
          some (window x jn W), some (window y jn W), some (windowSlope x y W jn),
          some (windowSlope x y W jn), some (windowIntercept x y W jn)⟩ ∧
      jp + W ≤ x.length ∧
      (∀ k, k + W ≤ x.length → windowSlope x y W k ≤ windowSlope x y W jp) ∧
      (∀ k, k < jp → windowSlope x y W k < windowSlope x y W jp) ∧
      jn + W ≤ x.length ∧
      (∀ k, k + W ≤ x.length → windowSlope x y W jn ≤ windowSlope x y W k) ∧
      (∀ k, k < jn → windowSlope x y W jn < windowSlope x y W k)) := by
  constructor
  · intro h
    unfold find_greatest_gradient_segments
    rw [if_pos h]
  · intro h
    exact grad_segments_spec x y W h

/-- C6 witness: on `x = y = [0, 1, 2, 3]` with `W = 3` the finder picks
windows of the stated form. -/
theorem C6_gradient_segments_witness :
    (0 < 3) ∧ ([0, 1, 2, 3] : List ℚ).length = ([0, 1, 2, 3] : List ℚ).length ∧
    3 ≤ ([0, 1, 2, 3] : List ℚ).length ∧
    ∃ jp jn, find_greatest_gradient_segments ([0, 1, 2, 3] : List ℚ) [0, 1, 2, 3] 3 =
      ⟨some (window [0, 1, 2, 3] jp 3), some (window [0, 1, 2, 3] jp 3),
        some (windowSlope [0, 1, 2, 3] [0, 1, 2, 3] 3 jp),
        some (windowSlope [0, 1, 2, 3] [0, 1, 2, 3] 3 jp),
        some (windowIntercept [0, 1, 2, 3] [0, 1, 2, 3] 3 jp),
        some (window [0, 1, 2, 3] jn 3), some (window [0, 1, 2, 3] jn 3),
        some (windowSlope [0, 1, 2, 3] [0, 1, 2, 3] 3 jn),
        some (windowSlope [0, 1, 2, 3] [0, 1, 2, 3] 3 jn),
        some (windowIntercept [0, 1, 2, 3] [0, 1, 2, 3] 3 jn)⟩ := by
  refine ⟨by norm_num, rfl, by decide, ?_⟩
  obtain ⟨jp, jn, hjeq, -, -, -, -, -, -⟩ :=
    (C6_gradient_segments [0, 1, 2, 3] [0, 1, 2, 3] 3 (by norm_num) rfl).2 (by decide)
  exact ⟨jp, jn, hjeq⟩

/-- C10: with equal-length inputs of at least `W` samples all ten
outputs of the gradient finder are defined, the greatest negative
gradient is at most the greatest positive gradient, with equality
exactly when all window slopes are equal. -/
theorem C10_gradient_defined_and_ordered (x y : List ℚ) (W : ℕ) (_hW : 0 < W)
    (_hxy : x.length = y.length) (hlen : W ≤ x.length) :
    ∃ ps ns,
      (find_greatest_gradient_segments x y W).pos_slope = some ps ∧
      (find_greatest_gradient_segments x y W).neg_slope = some ns ∧
      (find_greatest_gradient_segments x y W).max_positive_gradient = some ps ∧
      (find_greatest_gradient_segments x y W).max_negative_gradient = some ns ∧
      (find_greatest_gradient_segments x y W).pos_x.isSome = true ∧
      (find_greatest_gradient_segments x y W).pos_y.isSome = true ∧
      (find_greatest_gradient_segments x y W).pos_intercept.isSome = true ∧
      (find_greatest_gradient_segments x y W).neg_x.isSome = true ∧
      (find_greatest_gradient_segments x y W).neg_y.isSome = true ∧
      (find_greatest_gradient_segments x y W).neg_intercept.isSome = true ∧
      ns ≤ ps ∧
      (ns = ps ↔ ∀ i j, i + W ≤ x.length → j + W ≤ x.length →
        windowSlope x y W i = windowSlope x y W j) := by
  obtain ⟨jp, jn, heq, hjp, hmax, -, hjn, hmin, -⟩ := grad_segments_spec x y W hlen
  refine ⟨windowSlope x y W jp, windowSlope x y W jn,
    by rw [heq], by rw [heq], by rw [heq], by rw [heq], by rw [heq]; rfl, by rw [heq]; rfl,
    by rw [heq]; rfl, by rw [heq]; rfl, by rw [heq]; rfl, by rw [heq]; rfl,
    hmin jp hjp, ?_⟩
  constructor
  · intro he i j hi hj
    have h1 : windowSlope x y W i = windowSlope x y W jp :=
      le_antisymm (hmax i hi) (he ▸ hmin i hi)
    have h2 : windowSlope x y W j = windowSlope x y W jp :=
      le_antisymm (hmax j hj) (he ▸ hmin j hj)
    rw [h1, h2]
  · intro hall
    exact hall jn jp hjn hjp

/-- C10 witness: on `x = y = [0, 1, 2, 3]` with `W = 3` both extreme
slopes are defined and ordered. -/
theorem C10_gradient_defined_and_ordered_witness :
    (0 < 3) ∧ ([0, 1, 2, 3] : List ℚ).length = ([0, 1, 2, 3] : List ℚ).length ∧
    3 ≤ ([0, 1, 2, 3] : List ℚ).length ∧
    ∃ ps ns, (find_greatest_gradient_segments ([0, 1, 2, 3] : List ℚ) [0, 1, 2, 3] 3).pos_slope
        = some ps ∧
      (find_greatest_gradient_segments ([0, 1, 2, 3] : List ℚ) [0, 1, 2, 3] 3).neg_slope
        = some ns ∧ ns ≤ ps := by
  refine ⟨by norm_num, rfl, by decide, ?_⟩
  obtain ⟨ps, ns, h1, h2, -, -, -, -, -, -, -, -, hle, -⟩ :=
    C10_gradient_defined_and_ordered [0, 1, 2, 3] [0, 1, 2, 3] 3 (by norm_num) rfl (by decide)
  exact ⟨ps, ns, h1, h2, hle⟩
